import Mathlib

/-!
Shallow embedding of the reconciliation engine of this repository (an
email-to-spreadsheet reconciliation bot) and theorems settling the
specification claims about it.  The embedded pieces are:

* the subject normalizer and the streaming thread assembler of
  `src/imap/handler.py`;
* the reply-search strategy chain of `src/imap/search.py`;
* the row matcher, update applier and thread processor of
  `src/excel_manager.py`;
* the retry wrapper of `src/utils/retry.py`;
* the per-category error counters of `src/utils/stats.py`.

Machine integers do not occur in the relevant code; strings are modelled
over their character lists (ASCII semantics for `str.lower`, `str.strip`
and the regex class `\s`).  External collaborators (the IMAP connection,
`pandas` I/O, the date parser of `email.utils`) enter as parameters of the
embedded functions.
-/

namespace Recon

/-- ASCII model of the Python regex class `\s` and of the whitespace set of
`str.strip()`: space, tab, newline, carriage return, vertical tab, form
feed. -/
def isPySpace (c : Char) : Bool :=
  c.toNat == 32 || c.toNat == 9 || c.toNat == 10 || c.toNat == 13 ||
  c.toNat == 11 || c.toNat == 12

/-- ASCII model of Python `str.lower`, one character at a time. -/
def pyLowerChar (c : Char) : Char :=
  if 65 ≤ c.toNat ∧ c.toNat ≤ 90 then Char.ofNat (c.toNat + 32) else c

/-- Python `str.lower` on a character list. -/
def pyLowerList (l : List Char) : List Char := l.map pyLowerChar

/-- Removal of the trailing `isPySpace` run of a character list. -/
def rightTrim (l : List Char) : List Char :=
  (l.reverse.dropWhile isPySpace).reverse

/-- Model of Python `str.strip()` on a character list: the leading and the
trailing whitespace runs are removed. -/
def pyStripList (l : List Char) : List Char :=
  rightTrim (l.dropWhile isPySpace)

/-- Python `str.lower` on strings. -/
def pyLower (s : String) : String := ⟨pyLowerList s.data⟩

/-- Python `str.strip()` on strings. -/
def pyStrip (s : String) : String := ⟨pyStripList s.data⟩

/-- Length of the reply/forward marker matched by the anchored pattern
`^(?:Re|Fwd|Fw|FW|Forward):` of `IMAPHandler._normalize_subject`
(`src/imap/handler.py:284`), compared case-insensitively
(`re.IGNORECASE`); the `FW` alternative is subsumed by `Fw` under
case-insensitive matching.  `none` when no marker matches at the start. -/
def markerLen (l : List Char) : Option Nat :=
  let low := pyLowerList l
  if List.isPrefixOf "re:".data low then some 3
  else if List.isPrefixOf "fwd:".data low then some 4
  else if List.isPrefixOf "fw:".data low then some 3
  else if List.isPrefixOf "forward:".data low then some 8
  else none

/-- The substitution `re.sub(r'^(?:Re|Fwd|Fw|FW|Forward):\s*', '', subject,
flags=re.IGNORECASE)` of `src/imap/handler.py:284`: at most one leading
marker, together with the whitespace run after its colon, is removed. -/
def stripMarkerList (l : List Char) : List Char :=
  match markerLen l with
  | some n => (l.drop n).dropWhile isPySpace
  | none => l

/-- Embedding of `IMAPHandler._normalize_subject`
(`src/imap/handler.py:273-286`): remove one leading reply/forward marker,
then `strip()` and `lower()`. -/
def normalizeSubject (s : String) : String :=
  pyLower (pyStrip ⟨stripMarkerList s.data⟩)

/-- Whether a further reply/forward marker stands at the start of a
string; used to delimit the domain on which `normalizeSubject` is
idempotent. -/
def hasMarkerAtStart (s : String) : Bool := (markerLen s.data).isSome

/-- Modelled from the spec: `ExcelManager._normalize_email` is called
throughout `src/excel_manager.py` but its definition is absent from the
sources; spec §4.1 defines it as "lowercases and strips surrounding
whitespace; no other canonicalization". -/
def normalizeEmail (s : String) : String := pyLower (pyStrip s)

/-- The data of one fetched message, as assembled by
`IMAPHandler._fetch_email_data` (`src/imap/handler.py:136-186`).  The
`from` key of the Python dict is rendered `fromAddr` (`from` is reserved
in Lean). -/
structure EmailData where
  messageId : Nat
  subject : String
  fromAddr : String
  date : String
  body : String
  processed : Bool
deriving DecidableEq

/-- One conversational thread, as built by `IMAPHandler.get_email_threads`
(`src/imap/handler.py:234-238`); the constant empty `context` dict of the
source carries no logic and is omitted. -/
structure EmailThread where
  subject : String
  messages : List EmailData
deriving DecidableEq

/-- Embedding of `IMAPHandler._is_same_thread`
(`src/imap/handler.py:259-271`): comparison of normalized subjects. -/
def isSameThread (thread : EmailThread) (m : EmailData) : Bool :=
  normalizeSubject thread.subject == normalizeSubject m.subject

/-- One iteration of the message loop of `IMAPHandler.get_email_threads`
(`src/imap/handler.py:226-245`): the state is the pair of already emitted
threads and the current thread.  A message not matching the current
thread emits the current thread and opens a new one whose message list,
initialised empty in the source, receives the message right away. -/
def threadStep (st : List EmailThread × Option EmailThread) (m : EmailData) :
    List EmailThread × Option EmailThread :=
  match st.2 with
  | none => (st.1, some ⟨m.subject, [m]⟩)
  | some t =>
    if isSameThread t m then (st.1, some ⟨t.subject, t.messages ++ [m]⟩)
    else (st.1 ++ [t], some ⟨m.subject, [m]⟩)

/-- Embedding of the thread-assembly part of `IMAPHandler.get_email_threads`
(`src/imap/handler.py:222-252`), over the already fetched message stream in
delivery order; the final current thread, when present, is appended. -/
def getEmailThreads (msgs : List EmailData) : List EmailThread :=
  let st := msgs.foldl threadStep ([], none)
  match st.2 with
  | some t => st.1 ++ [t]
  | none => st.1

/-- A message with a given subject; the other fields are immaterial to the
thread assembler. -/
def msgWithSubject (i : Nat) (subj : String) : EmailData :=
  ⟨i, subj, "sender@x.com", "", "", false⟩

/-- The fetch stream of the spec's thread-assembler example: subjects
`["Offer", "Offer", "Other", "Offer"]` in that order. -/
def offerStream : List EmailData :=
  [msgWithSubject 1 "Offer", msgWithSubject 2 "Offer",
   msgWithSubject 3 "Other", msgWithSubject 4 "Offer"]

/-- A one-message `"Offer"` thread, used as concrete current thread. -/
def thOffer : EmailThread := ⟨"Offer", [msgWithSubject 1 "Offer"]⟩

/-- One loaded row of the tabular store: a finite map from column name to
cell text, as produced by `ExcelManager.load_excel`
(`src/excel_manager.py:90-106`, `dtype=str` and `fillna('')` make every
cell a string). -/
abbrev Row := List (String × String)

/-- Reading a cell by column label, `row[col]` / `df.at[idx, col]`.  A
missing label defaults to `""` here; the theorems about the manager
restrict to states in which the accessed columns are present, which is
where the `pandas` access is defined. -/
def rowAt (row : Row) (col : String) : String :=
  (List.lookup col row).getD ""

/-- State of `ExcelManager` (`src/excel_manager.py:16-35`) as far as the
claims reach: the loaded rows, the configured logical-to-actual column
map `config['columns']`, the response-address column name, the modified
flag and the `stats.excel_updates` counter.  `mailColumn` is modelled
from the spec: the attribute `self.mail_column` is read by
`find_related_rows` and `update_row_data` but never assigned in the
sources; spec §3 describes it as the row's primary contact address
column. -/
structure ExcelMgr where
  mailColumn : String
  responseMailColumn : String
  columnMapping : List (String × String)
  rows : List Row
  modified : Bool
  excelUpdates : Nat
deriving DecidableEq

/-- The row loop of `ExcelManager.find_related_rows`
(`src/excel_manager.py:136-147`): per row, the normalized primary address
is tested first (`if row_email and (row_email == original_email or
row_email in normalized_related)`, with Python string truthiness as
non-emptiness); on a miss, the response column is tested when present.
`idx` carries the running `iterrows` index. -/
def findRelatedRowsAux (mailCol respCol orig : String) (related : List String) :
    Nat → List Row → List (Nat × String)
  | _, [] => []
  | idx, row :: rest =>
    let rowEmail := normalizeEmail (rowAt row mailCol)
    if rowEmail ≠ "" ∧ (rowEmail = orig ∨ rowEmail ∈ related) then
      (idx, rowEmail) :: findRelatedRowsAux mailCol respCol orig related (idx + 1) rest
    else
      match List.lookup respCol row with
      | some v =>
        let respEmail := normalizeEmail v
        if respEmail ≠ "" ∧ (respEmail = orig ∨ respEmail ∈ related) then
          (idx, respEmail) :: findRelatedRowsAux mailCol respCol orig related (idx + 1) rest
        else findRelatedRowsAux mailCol respCol orig related (idx + 1) rest
      | none => findRelatedRowsAux mailCol respCol orig related (idx + 1) rest

/-- Embedding of `ExcelManager.find_related_rows`
(`src/excel_manager.py:114-149`): normalize the query address and the
related set, then scan every row. -/
def findRelatedRows (mgr : ExcelMgr) (originalEmail : String)
    (relatedEmails : List String) : List (Nat × String) :=
  findRelatedRowsAux mgr.mailColumn mgr.responseMailColumn
    (normalizeEmail originalEmail) (relatedEmails.map normalizeEmail) 0 mgr.rows

/-- The per-row qualification in the words of the (amended) claim C2: the
matched address of a row is its nonempty normalized primary address when
that equals the query or lies in the related set, otherwise — when the
response column is present — its nonempty normalized response address
under the same test.  Compared against `findRelatedRows` by theorem. -/
def matchedAddress (mailCol respCol orig : String) (related : List String)
    (row : Row) : Option String :=
  let p := normalizeEmail (rowAt row mailCol)
  if p ≠ "" ∧ (p = orig ∨ p ∈ related) then some p
  else
    match List.lookup respCol row with
    | some v =>
      let q := normalizeEmail v
      if q ≠ "" ∧ (q = orig ∨ q ∈ related) then some q else none
    | none => none

/-- Writing one cell, `df.at[row_idx, col] = value`
(`src/excel_manager.py:176`): overwrite when the column label exists,
enlarge with a new label otherwise (the `pandas` `.at` enlargement
semantics). -/
def setCell (row : Row) (col value : String) : Row :=
  if (List.lookup col row).isSome then
    row.map fun kv => if kv.1 = col then (kv.1, value) else kv
  else row ++ [(col, value)]

/-- The field loop of `ExcelManager.update_row_data`
(`src/excel_manager.py:168-176`): each field of `data` whose name is in
the configured column map is written, string-trimmed, into the mapped
column; other fields are skipped.  Per spec §3 every `AnalysisResult`
value is a string, so the `isinstance(value, str)` guard of the source
always applies the `strip()`. -/
def applyFields (mapping : List (String × String)) (data : List (String × String))
    (row : Row) : Row :=
  data.foldl
    (fun r kv =>
      match List.lookup kv.1 mapping with
      | some col => setCell r col (pyStrip kv.2)
      | none => r)
    row

/-- Updating position `n` of a list in place, leaving other positions and
an out-of-range `n` unchanged. -/
def listModify {α : Type} (f : α → α) : Nat → List α → List α
  | _, [] => []
  | 0, a :: as => f a :: as
  | n + 1, a :: as => a :: listModify f n as

/-- Embedding of `ExcelManager.update_row_data`
(`src/excel_manager.py:151-189`): apply the configured fields, then — when
a truthy (non-`None`, nonempty) response address is supplied whose
normalized form differs from the row's current normalized primary address
(read back after the field writes) — write the original-cased response
address into the response column; finally set the modified flag and bump
the update counter. -/
def updateRowData (mgr : ExcelMgr) (rowIdx : Nat) (data : List (String × String))
    (responseEmail : Option String) : ExcelMgr :=
  let rows1 := listModify (applyFields mgr.columnMapping data) rowIdx mgr.rows
  let rows2 :=
    match responseEmail with
    | some r =>
      if r ≠ "" then
        if normalizeEmail r
            ≠ normalizeEmail (rowAt ((rows1.get? rowIdx).getD []) mgr.mailColumn) then
          listModify (fun row => setCell row mgr.responseMailColumn r) rowIdx rows1
        else rows1
      else rows1
    | none => rows1
  { mgr with rows := rows2, modified := true, excelUpdates := mgr.excelUpdates + 1 }

/-- The inner loop of `ExcelManager.process_email_thread`
(`src/excel_manager.py:216-220`): the first message whose normalized
sender differs from the matched address supplies the response address;
`None` when every sender matches. -/
def pickResponseEmail (messages : List EmailData) (foundEmail : String) : Option String :=
  match messages with
  | [] => none
  | msg :: rest =>
    if normalizeEmail msg.fromAddr ≠ normalizeEmail foundEmail then some msg.fromAddr
    else pickResponseEmail rest foundEmail

/-- The response-address selection in the words of claim C9: the sender of
the first message in thread order whose normalized sender address differs
from the candidate's matched address. -/
def firstDivergentSender (messages : List EmailData) (matched : String) : Option String :=
  (messages.find? fun msg => normalizeEmail msg.fromAddr != normalizeEmail matched).map
    fun msg => msg.fromAddr

/-- Embedding of `ExcelManager.process_email_thread`
(`src/excel_manager.py:191-227`): match rows from the thread participants,
return unchanged on zero matches (warning only), otherwise update every
matched row with the one thread-level analysis result. -/
def processEmailThread (mgr : ExcelMgr) (originalEmail : String)
    (participants : List String) (messages : List EmailData)
    (analysisResults : List (String × String)) : ExcelMgr :=
  let relatedRows := findRelatedRows mgr originalEmail participants
  if relatedRows.isEmpty then mgr
  else
    relatedRows.foldl
      (fun m p => updateRowData m p.1 analysisResults (pickResponseEmail messages p.2))
      mgr

/-- The columns written by a given analysis result under a given
configured column map. -/
def writtenCols (mapping : List (String × String))
    (data : List (String × String)) : List String :=
  data.filterMap fun kv => List.lookup kv.1 mapping

/-- Manager for the spec's row-matcher example: primary addresses
`["a@x.com", "B@X.com"]`. -/
def mgrRowMatcherEx : ExcelMgr :=
  { mailColumn := "Mail", responseMailColumn := "Resp", columnMapping := [],
    rows := [[("Mail", "a@x.com")], [("Mail", "B@X.com")]],
    modified := false, excelUpdates := 0 }

/-- Manager holding one row whose primary address cell is empty. -/
def mgrEmptyAddrEx : ExcelMgr :=
  { mailColumn := "Mail", responseMailColumn := "Resp", columnMapping := [],
    rows := [[("Mail", "")]], modified := false, excelUpdates := 0 }

/-- A concrete row with a primary and a response address. -/
def rowRespEx : Row := [("Mail", "x@y.com"), ("Resp", "old@z.com")]

/-- Manager holding `rowRespEx` only. -/
def mgrRespEx : ExcelMgr :=
  { mailColumn := "Mail", responseMailColumn := "Resp", columnMapping := [],
    rows := [rowRespEx], modified := false, excelUpdates := 0 }

/-- A concrete row for the update-applier example. -/
def rowUpdateEx : Row := [("Mail", "a@x.com"), ("Price", "old"), ("Note", "keep")]

/-- Manager for the update-applier example: one configured field
`price_usd` mapped to column `"Price"`. -/
def mgrUpdateEx : ExcelMgr :=
  { mailColumn := "Mail", responseMailColumn := "Resp",
    columnMapping := [("price_usd", "Price")], rows := [rowUpdateEx],
    modified := false, excelUpdates := 0 }

/-- Analysis result with one configured and one unconfigured field. -/
def dataUpdateEx : List (String × String) :=
  [("price_usd", " 42 "), ("unknown_field", "zzz")]

/-- The attempt loop of `retry_with_backoff` (`src/utils/retry.py:19-35`).
`op i` is the outcome of the wrapped call on zero-based attempt `i`
(`Except.error` models a raised exception); `retryDelay` is the current
sleep length, doubled after each sleep; `remaining` counts the attempts
still allowed, so the source's guard `attempt < attempts - 1` ("do not
sleep on the last attempt") is `remaining > 1`; `last` is
`last_exception`; `sleeps` records each `time.sleep` call in order.  The
result pairs the Python return/raise behaviour (`Except.ok (some a)` for
a returned value, `Except.ok none` for the implicit `None` of a run with
zero attempts, `Except.error e` for a re-raised final exception) with the
sleep trace. -/
def retryAux {ε α : Type} (op : Nat → Except ε α) (retryDelay : ℚ) (i : Nat) :
    (remaining : Nat) → Option ε → List ℚ → Except ε (Option α) × List ℚ
  | 0, last, sleeps =>
    match last with
    | some e => (Except.error e, sleeps)
    | none => (Except.ok none, sleeps)
  | r + 1, _last, sleeps =>
    match op i with
    | Except.ok a => (Except.ok (some a), sleeps)
    | Except.error e =>
      if 0 < r then
        retryAux op (2 * retryDelay) (i + 1) r (some e) (sleeps ++ [retryDelay])
      else
        retryAux op retryDelay (i + 1) r (some e) sleeps

/-- Embedding of `retry_with_backoff(attempts, delay)` applied to a
wrapped operation (`src/utils/retry.py:6-38`). -/
def retryWithBackoff {ε α : Type} (attempts : Nat) (delay : ℚ)
    (op : Nat → Except ε α) : Except ε (Option α) × List ℚ :=
  retryAux op delay 0 attempts none []

/-- The concrete operation of the spec's retry example: attempts 1 and 2
(indices 0 and 1) raise, attempt 3 returns 42. -/
def opC3 : Nat → Except String Nat :=
  fun k => if k < 2 then Except.error ("fail " ++ toString k) else Except.ok 42

/-- The five error categories initialised by the `errors` default factory
of `ProcessingStats` (`src/utils/stats.py:37-43`), each at zero. -/
def errorsDefault : List (String × Nat) :=
  [("imap", 0), ("lm_studio", 0), ("excel", 0), ("search", 0), ("processing", 0)]

/-- The names of the five initialised error categories. -/
def errorCategories : List String :=
  ["imap", "lm_studio", "excel", "search", "processing"]

/-- Python `d[k] += 1` on a counter dict: the read raises `KeyError(k)`
when the key is absent, otherwise the value at `k` is bumped. -/
def pyDictIncr (d : List (String × Nat)) (k : String) :
    Except String (List (String × Nat)) :=
  match List.lookup k d with
  | some n => Except.ok (d.map fun kv => if kv.1 = k then (kv.1, n + 1) else kv)
  | none => Except.error k

/-- The key of the error counter bumped in the `except` branch of
`IMAPHandler._connect` (`src/imap/handler.py:85`). -/
def imapConnectErrorKey : String := "imap_connect"

/-- The key bumped in the `except` branch of `IMAPHandler.search`
(`src/imap/handler.py:133`). -/
def imapSearchErrorKey : String := "imap_search"

/-- The key bumped in the `except` branch of
`IMAPHandler._fetch_email_data` (`src/imap/handler.py:185`). -/
def imapFetchErrorKey : String := "imap_fetch"

/-- The key bumped in the `except` branch of `IMAPHandler.mark_as_read`
(`src/imap/handler.py:307`). -/
def imapMarkErrorKey : String := "imap_mark"

/-- The slice of `ProcessingStats` touched by the reply finder: the
`replies_found` counter and the per-category error dict. -/
structure Stats where
  repliesFound : Nat
  errors : List (String × Nat)
deriving DecidableEq

/-- The fixed strategy order built by
`EmailSearchStrategy.search_strategies` (`src/imap/search.py:12-17`). -/
def searchStrategyNames : List String :=
  ["message_id", "references", "subject_from"]

/-- Embedding of `EmailSearchStrategy.find_reply_optimized`
(`src/imap/search.py:19-31`), over the list of named strategy outcomes in
priority order.  An outcome `Except.error e` models a strategy raising
internally; `Except.ok none` a falsy (no-match) result; `Except.ok
(some r)` a found reply.  A raising strategy bumps the shared `'search'`
error counter and the loop continues; the first truthy result bumps
`replies_found` and is returned; exhaustion returns `none`.  The outer
`Except` carries a `KeyError` from the counter bump, which cannot occur
on initialised stats. -/
def findReplyOptimized {μ : Type} :
    List (String × Except String (Option μ)) → Stats →
    Except String (Option μ × Stats)
  | [], stats => Except.ok (none, stats)
  | (_, outcome) :: rest, stats =>
    match outcome with
    | Except.ok (some r) =>
      Except.ok (some r, { stats with repliesFound := stats.repliesFound + 1 })
    | Except.ok none => findReplyOptimized rest stats
    | Except.error _ =>
      match pyDictIncr stats.errors "search" with
      | Except.ok errs => findReplyOptimized rest { stats with errors := errs }
      | Except.error k => Except.error k

/-- The number of raising strategies in a list of outcomes. -/
def raisedCount {μ : Type} (strategies : List (String × Except String (Option μ))) : Nat :=
  (strategies.filter fun x =>
    match x.2 with
    | Except.error _ => true
    | Except.ok _ => false).length

/-- Fresh stats: no replies, the five default error categories. -/
def statsInit : Stats := { repliesFound := 0, errors := errorsDefault }

/-- Embedding of `EmailSearchStrategy._search_by_subject_and_from`
(`src/imap/search.py:54-76`).  The external collaborators are parameters:
`parseDate` stands for `email.utils.parsedate_to_datetime` followed by
the UTC conversion (`none` models a raised parse exception), `fmt` for
`strftime("%d-%b-%Y")` on the parsed anchor, and `uidSearch` for the
`self.mail.uid('SEARCH', ...)` call joined with the fetch-and-parse step:
`none` means no hit, `some found` a hit whose fetched parse is `found`
(possibly `none`, which the source returns as-is without trying the
second subject form).  On a parse failure the source's `except` handler
evaluates `datetime.now(timezone.utc) - timedelta(days=14)`, but the
module imports (`src/imap/search.py:1-4`) do not bind `timedelta`, so the
handler itself raises `NameError` instead of building the 14-day
fallback anchor. -/
def searchBySubjectAndFrom {δ μ : Type} (parseDate : String → Option δ)
    (fmt : δ → String) (uidSearch : List String → Option (Option μ))
    (sentDate sentTo subj : String) : Except String (Option μ) :=
  match parseDate sentDate with
  | some d =>
    match uidSearch ["FROM", sentTo, "SINCE", fmt d, "SUBJECT", "Re: " ++ subj] with
    | some found => Except.ok found
    | none =>
      match uidSearch ["FROM", sentTo, "SINCE", fmt d, "SUBJECT", subj] with
      | some found => Except.ok found
      | none => Except.ok none
  | none => Except.error "NameError: name 'timedelta' is not defined"

/-! ### Character- and string-level lemmas for the normalizers -/

theorem char_ofNat_toNat_lower {n : Nat} (h1 : 97 ≤ n) (h2 : n ≤ 122) :
    (Char.ofNat n).toNat = n := by
  interval_cases n <;> rfl

theorem pyLowerChar_toNat_of_upper {c : Char} (h : 65 ≤ c.toNat ∧ c.toNat ≤ 90) :
    (pyLowerChar c).toNat = c.toNat + 32 := by
  rw [pyLowerChar, if_pos h]
  exact char_ofNat_toNat_lower (by omega) (by omega)

theorem pyLowerChar_idem (c : Char) : pyLowerChar (pyLowerChar c) = pyLowerChar c := by
  by_cases h : 65 ≤ c.toNat ∧ c.toNat ≤ 90
  · have hn : ¬(65 ≤ (pyLowerChar c).toNat ∧ (pyLowerChar c).toNat ≤ 90) := by
      rw [pyLowerChar_toNat_of_upper h]; omega
    conv_lhs => rw [pyLowerChar]
    rw [if_neg hn]
  · have hc : pyLowerChar c = c := by rw [pyLowerChar, if_neg h]
    rw [hc, hc]

theorem isPySpace_false_of_65_le {m : Nat} (h : 65 ≤ m) :
    (m == 32 || m == 9 || m == 10 || m == 13 || m == 11 || m == 12) = false := by
  simp only [Bool.or_eq_false_iff, beq_eq_false_iff_ne, ne_eq]
  omega

theorem isPySpace_pyLowerChar (c : Char) : isPySpace (pyLowerChar c) = isPySpace c := by
  by_cases h : 65 ≤ c.toNat ∧ c.toNat ≤ 90
  · simp only [isPySpace, pyLowerChar_toNat_of_upper h]
    rw [isPySpace_false_of_65_le (by omega), isPySpace_false_of_65_le (by omega)]
  · rw [pyLowerChar, if_neg h]

theorem isPySpace_comp_pyLowerChar : isPySpace ∘ pyLowerChar = isPySpace :=
  funext fun c => isPySpace_pyLowerChar c

theorem rightTrim_eq_rdropWhile (l : List Char) :
    rightTrim l = List.rdropWhile isPySpace l := rfl

theorem dropWhile_eq_self_of_head? {α : Type} {p : α → Bool} {l : List α}
    (h : ∀ a, l.head? = some a → p a = false) : l.dropWhile p = l := by
  cases l with
  | nil => rfl
  | cons x xs =>
    have hx := h x rfl
    simp [List.dropWhile_cons, hx]

theorem head?_dropWhile_false {α : Type} {p : α → Bool} {l : List α} {a : α}
    (h : (l.dropWhile p).head? = some a) : p a = false := by
  induction l with
  | nil => simp [List.dropWhile_nil] at h
  | cons x xs ih =>
    by_cases hx : p x
    · rw [List.dropWhile_cons, if_pos hx] at h
      exact ih h
    · rw [List.dropWhile_cons, if_neg hx] at h
      simp only [List.head?_cons, Option.some.injEq] at h
      subst h
      simp only [Bool.not_eq_true] at hx
      exact hx

theorem head?_rdropWhile {α : Type} {p : α → Bool} {l : List α} {a : α}
    (h : (List.rdropWhile p l).head? = some a) : l.head? = some a := by
  induction l using List.reverseRecOn with
  | nil => simp [List.rdropWhile_nil] at h
  | append_singleton ys x ih =>
    rw [List.rdropWhile_concat] at h
    by_cases hx : p x
    · rw [if_pos hx] at h
      have hy := ih h
      rw [List.head?_append, hy]
      rfl
    · rw [if_neg hx] at h
      exact h

theorem dropWhile_pyStripList (l : List Char) :
    (pyStripList l).dropWhile isPySpace = pyStripList l := by
  apply dropWhile_eq_self_of_head?
  intro a ha
  rw [pyStripList, rightTrim_eq_rdropWhile] at ha
  exact head?_dropWhile_false (head?_rdropWhile ha)

theorem pyStripList_idem (l : List Char) :
    pyStripList (pyStripList l) = pyStripList l :=
  calc pyStripList (pyStripList l)
      = List.rdropWhile isPySpace ((pyStripList l).dropWhile isPySpace) := rfl
    _ = List.rdropWhile isPySpace (pyStripList l) := by rw [dropWhile_pyStripList]
    _ = List.rdropWhile isPySpace
          (List.rdropWhile isPySpace (l.dropWhile isPySpace)) := rfl
    _ = List.rdropWhile isPySpace (l.dropWhile isPySpace) :=
        List.rdropWhile_idempotent isPySpace (l.dropWhile isPySpace)
    _ = pyStripList l := rfl

theorem pyStripList_pyLowerList (l : List Char) :
    pyStripList (pyLowerList l) = pyLowerList (pyStripList l) := by
  simp only [pyStripList, rightTrim_eq_rdropWhile, pyLowerList, List.rdropWhile,
    List.dropWhile_map, isPySpace_comp_pyLowerChar, ← List.map_reverse]

theorem pyLowerList_idem (l : List Char) :
    pyLowerList (pyLowerList l) = pyLowerList l := by
  simp only [pyLowerList, List.map_map]
  congr 1
  funext c
  exact pyLowerChar_idem c

/-! ### Claim C4: idempotence of the subject normalizer -/

/-- C4 counterexample: `normalize_subject` is not idempotent.  On the
subject `"Re: Re: X"` the single anchored substitution of
`src/imap/handler.py:284` removes only the first `"Re: "` marker, so one
application yields `"re: x"` while a second application removes the now
leading `"re: "` as well and yields `"x"`. -/
theorem c4_counterexample :
    normalizeSubject "Re: Re: X" = "re: x" ∧
    normalizeSubject (normalizeSubject "Re: Re: X") = "x" ∧
    normalizeSubject (normalizeSubject "Re: Re: X") ≠ normalizeSubject "Re: Re: X" := by
  refine ⟨by decide, by decide, by decide⟩

/-- C4 (amended): `normalize_subject` strips at most one leading
reply/forward marker, then strips outer whitespace and lowercases, and it
is idempotent on every subject whose once-normalized form does not itself
begin with a further marker; on subjects with stacked markers (such as
`"Re: Re: X"`) a second application strips one marker more, so
idempotence fails in general. -/
theorem c4_normalize_subject_idem (s : String)
    (h : hasMarkerAtStart (normalizeSubject s) = false) :
    normalizeSubject (normalizeSubject s) = normalizeSubject s := by
  have hm : markerLen (normalizeSubject s).data = none := by
    rw [hasMarkerAtStart] at h
    cases hml : markerLen (normalizeSubject s).data with
    | none => rfl
    | some n => rw [hml] at h; simp at h
  show pyLower (pyStrip ⟨stripMarkerList (normalizeSubject s).data⟩)
      = normalizeSubject s
  rw [stripMarkerList, hm]
  show String.mk (pyLowerList (pyStripList
        (pyLowerList (pyStripList (stripMarkerList s.data)))))
      = String.mk (pyLowerList (pyStripList (stripMarkerList s.data)))
  apply congrArg
  calc pyLowerList (pyStripList (pyLowerList (pyStripList (stripMarkerList s.data))))
      = pyLowerList (pyLowerList (pyStripList (pyStripList (stripMarkerList s.data)))) := by
        rw [pyStripList_pyLowerList]
    _ = pyLowerList (pyLowerList (pyStripList (stripMarkerList s.data))) := by
        rw [pyStripList_idem]
    _ = pyLowerList (pyStripList (stripMarkerList s.data)) := pyLowerList_idem _

/-- Witness for `c4_normalize_subject_idem` at the concrete subject
`"Re: Project Offer"`. -/
theorem c4_witness :
    hasMarkerAtStart (normalizeSubject "Re: Project Offer") = false ∧
    normalizeSubject (normalizeSubject "Re: Project Offer")
      = normalizeSubject "Re: Project Offer" :=
  ⟨by decide, c4_normalize_subject_idem "Re: Project Offer" (by decide)⟩

/-! ### Claim C1: the streaming thread assembler -/

/-- C1: the thread assembler keeps one current thread; a message joins the
current thread exactly when its normalized subject equals the current
thread's normalized subject; otherwise the current thread (when present)
is emitted and a new thread is opened with this message as first member;
and on the fetch stream with subjects `["Offer", "Offer", "Other",
"Offer"]` it emits exactly three threads of sizes 2, 1, 1. -/
theorem c1_thread_assembler :
    (∀ (ts : List EmailThread) (t : EmailThread) (m : EmailData),
      (threadStep (ts, some t) m = (ts, some ⟨t.subject, t.messages ++ [m]⟩) ↔
        normalizeSubject m.subject = normalizeSubject t.subject) ∧
      (normalizeSubject m.subject ≠ normalizeSubject t.subject →
        threadStep (ts, some t) m = (ts ++ [t], some ⟨m.subject, [m]⟩))) ∧
    (∀ (ts : List EmailThread) (m : EmailData),
      threadStep (ts, none) m = (ts, some ⟨m.subject, [m]⟩)) ∧
    (getEmailThreads offerStream).map (fun t => t.messages.length) = [2, 1, 1] ∧
    (getEmailThreads offerStream).length = 3 := by
  refine ⟨fun ts t m => ⟨⟨?_, ?_⟩, ?_⟩, fun ts m => rfl, by decide, by decide⟩
  · intro heq
    by_cases hb : isSameThread t m
    · have := hb
      simp only [isSameThread, beq_iff_eq] at this
      exact this.symm
    · exfalso
      simp only [threadStep, if_neg hb] at heq
      have hfst := congrArg Prod.fst heq
      simp at hfst
  · intro heq
    have hb : isSameThread t m = true := by
      simp only [isSameThread, beq_iff_eq]
      exact heq.symm
    simp [threadStep, hb]
  · intro hne
    have hb : isSameThread t m = false := by
      simp only [isSameThread, beq_eq_false_iff_ne, ne_eq]
      exact fun hh => hne hh.symm
    simp [threadStep, hb]

/-- Witness for the hypothesis-bearing part of `c1_thread_assembler`: the
message with subject `"Other"` closes the current `"Offer"` thread and
opens a fresh one. -/
theorem c1_witness :
    normalizeSubject (msgWithSubject 3 "Other").subject
      ≠ normalizeSubject thOffer.subject ∧
    threadStep ([], some thOffer) (msgWithSubject 3 "Other")
      = ([thOffer], some ⟨"Other", [msgWithSubject 3 "Other"]⟩) :=
  ⟨by decide,
    (c1_thread_assembler.1 [] thOffer (msgWithSubject 3 "Other")).2 (by decide)⟩


/-! ### Lemmas about rows, cells and positional list update -/

theorem listModify_get?_eq {α : Type} (f : α → α) :
    ∀ (n : Nat) (l : List α), (listModify f n l).get? n = (l.get? n).map f := by
  intro n l
  induction l generalizing n with
  | nil => cases n <;> rfl
  | cons a as ih =>
    cases n with
    | zero => rfl
    | succ m => simpa [listModify] using ih m

theorem listModify_get?_ne {α : Type} (f : α → α) :
    ∀ (n j : Nat) (l : List α), j ≠ n → (listModify f n l).get? j = l.get? j := by
  intro n j l
  induction l generalizing n j with
  | nil => intro _; cases n <;> rfl
  | cons a as ih =>
    intro hj
    cases n with
    | zero =>
      cases j with
      | zero => exact absurd rfl hj
      | succ i => rfl
    | succ m =>
      cases j with
      | zero => rfl
      | succ i => simpa [listModify] using ih m i fun h => hj (by rw [h])

theorem lookup_map_replace {β : Type} (row : List (String × β)) (col : String) (v : β) :
    List.lookup col (row.map fun kv => if kv.1 = col then (kv.1, v) else kv)
      = (List.lookup col row).map fun _ => v := by
  induction row with
  | nil => rfl
  | cons kv rest ih =>
    obtain ⟨k, w⟩ := kv
    by_cases hk : k = col
    · subst hk
      simp [List.lookup_cons]
    · have hb : (col == k) = false := beq_false_of_ne fun e => hk e.symm
      simp [List.lookup_cons, if_neg hk, hb, ih]

theorem lookup_map_replace_ne {β : Type} (row : List (String × β)) (col : String)
    (v : β) (c : String) (hc : c ≠ col) :
    List.lookup c (row.map fun kv => if kv.1 = col then (kv.1, v) else kv)
      = List.lookup c row := by
  induction row with
  | nil => rfl
  | cons kv rest ih =>
    obtain ⟨k, w⟩ := kv
    by_cases hk : k = col
    · subst hk
      have hb : (c == k) = false := beq_false_of_ne hc
      simp [List.lookup_cons, hb, ih]
    · by_cases hck : (c == k) = true
      · simp [List.lookup_cons, if_neg hk, hck]
      · have hb : (c == k) = false := by simpa using hck
        simp [List.lookup_cons, if_neg hk, hb, ih]

theorem lookup_append_single_self (row : Row) (col v : String)
    (h : List.lookup col row = none) :
    List.lookup col (row ++ [(col, v)]) = some v := by
  induction row with
  | nil => simp [List.lookup_cons]
  | cons kv rest ih =>
    obtain ⟨k, w⟩ := kv
    by_cases hck : (col == k) = true
    · rw [List.lookup_cons] at h
      simp [hck] at h
    · have hb : (col == k) = false := by simpa using hck
      rw [List.lookup_cons] at h
      simp only [hb] at h
      simp only [List.cons_append, List.lookup_cons, hb]
      exact ih h

theorem lookup_append_single_ne (row : Row) (col v c : String) (hc : c ≠ col) :
    List.lookup c (row ++ [(col, v)]) = List.lookup c row := by
  induction row with
  | nil =>
    have hb : (c == col) = false := beq_false_of_ne hc
    simp [List.lookup_cons, hb]
  | cons kv rest ih =>
    obtain ⟨k, w⟩ := kv
    by_cases hck : (c == k) = true
    · simp [List.lookup_cons, hck]
    · have hb : (c == k) = false := by simpa using hck
      simp only [List.cons_append, List.lookup_cons, hb]
      exact ih

theorem rowAt_setCell_self (row : Row) (col v : String) :
    rowAt (setCell row col v) col = v := by
  rw [rowAt, setCell]
  by_cases h : (List.lookup col row).isSome
  · rw [if_pos h, lookup_map_replace]
    obtain ⟨w, hw⟩ := Option.isSome_iff_exists.mp h
    rw [hw]
    rfl
  · rw [if_neg h, lookup_append_single_self row col v
      (Option.not_isSome_iff_eq_none.mp h)]
    rfl

theorem rowAt_setCell_ne (row : Row) (col v c : String) (hc : c ≠ col) :
    rowAt (setCell row col v) c = rowAt row c := by
  rw [rowAt, setCell]
  by_cases h : (List.lookup col row).isSome
  · rw [if_pos h, lookup_map_replace_ne row col v c hc]
    rfl
  · rw [if_neg h, lookup_append_single_ne row col v c hc]
    rfl

theorem writtenCols_cons (mapping : List (String × String))
    (kv : String × String) (rest : List (String × String)) :
    writtenCols mapping (kv :: rest)
      = match List.lookup kv.1 mapping with
        | some col => col :: writtenCols mapping rest
        | none => writtenCols mapping rest := by
  cases hl : List.lookup kv.1 mapping with
  | some col => simp [writtenCols, List.filterMap_cons, hl]
  | none => simp [writtenCols, List.filterMap_cons, hl]

theorem rowAt_applyFields_notin (mapping data : List (String × String)) :
    ∀ (row : Row) (c : String), c ∉ writtenCols mapping data →
      rowAt (applyFields mapping data row) c = rowAt row c := by
  induction data with
  | nil => intro row c _; rfl
  | cons kv rest ih =>
    intro row c hc
    rw [writtenCols_cons] at hc
    cases hl : List.lookup kv.1 mapping with
    | none =>
      rw [hl] at hc
      simpa [applyFields, List.foldl_cons, hl] using ih row c hc
    | some col =>
      rw [hl] at hc
      have hcol : c ≠ col := fun e => hc (e ▸ List.mem_cons_self col _)
      have hrest : c ∉ writtenCols mapping rest := fun hm => hc (List.mem_cons_of_mem _ hm)
      calc rowAt (applyFields mapping (kv :: rest) row) c
          = rowAt (applyFields mapping rest (setCell row col (pyStrip kv.2))) c := by
            simp [applyFields, List.foldl_cons, hl]
        _ = rowAt (setCell row col (pyStrip kv.2)) c := ih _ c hrest
        _ = rowAt row c := rowAt_setCell_ne row col (pyStrip kv.2) c hcol

theorem rowAt_applyFields_written (mapping data : List (String × String)) :
    ∀ (row : Row) (k v col : String),
      (writtenCols mapping data).Nodup → (k, v) ∈ data →
      List.lookup k mapping = some col →
      rowAt (applyFields mapping data row) col = pyStrip v := by
  induction data with
  | nil => intro row k v col _ hmem _; cases hmem
  | cons kv rest ih =>
    intro row k v col hnodup hmem hk
    rcases List.mem_cons.mp hmem with heq | hmem'
    · subst heq
      rw [writtenCols_cons] at hnodup
      simp only [hk] at hnodup
      have hcol : col ∉ writtenCols mapping rest := by
        have := List.nodup_cons.mp hnodup
        exact this.1
      calc rowAt (applyFields mapping ((k, v) :: rest) row) col
          = rowAt (applyFields mapping rest (setCell row col (pyStrip v))) col := by
            simp [applyFields, List.foldl_cons, hk]
        _ = rowAt (setCell row col (pyStrip v)) col :=
            rowAt_applyFields_notin mapping rest _ col hcol
        _ = pyStrip v := rowAt_setCell_self _ col (pyStrip v)
    · rw [writtenCols_cons] at hnodup
      cases hl : List.lookup kv.1 mapping with
      | none =>
        rw [hl] at hnodup
        simpa [applyFields, List.foldl_cons, hl] using ih row k v col hnodup hmem' hk
      | some col0 =>
        rw [hl] at hnodup
        have hnodup' : (writtenCols mapping rest).Nodup := (List.nodup_cons.mp hnodup).2
        calc rowAt (applyFields mapping (kv :: rest) row) col
            = rowAt (applyFields mapping rest (setCell row col0 (pyStrip kv.2))) col := by
              simp [applyFields, List.foldl_cons, hl]
          _ = pyStrip v := ih _ k v col hnodup' hmem' hk

/-! ### Claim C2: the row matcher -/

theorem findRelatedRowsAux_eq_filterMap (mailCol respCol orig : String)
    (related : List String) :
    ∀ (rows : List Row) (idx : Nat),
      findRelatedRowsAux mailCol respCol orig related idx rows
        = (List.enumFrom idx rows).filterMap fun p =>
            (matchedAddress mailCol respCol orig related p.2).map fun a => (p.1, a) := by
  intro rows
  induction rows with
  | nil => intro idx; rfl
  | cons row rest ih =>
    intro idx
    rw [List.enumFrom_cons, List.filterMap_cons]
    by_cases h1 : normalizeEmail (rowAt row mailCol) ≠ "" ∧
        (normalizeEmail (rowAt row mailCol) = orig ∨
          normalizeEmail (rowAt row mailCol) ∈ related)
    · simp only [findRelatedRowsAux, matchedAddress, if_pos h1, Option.map_some']
      rw [ih]
      rfl
    · simp only [findRelatedRowsAux, matchedAddress, if_neg h1]
      cases hl : List.lookup respCol row with
      | none =>
        simp only [Option.map_none']
        exact ih (idx + 1)
      | some v =>
        by_cases h2 : normalizeEmail v ≠ "" ∧
            (normalizeEmail v = orig ∨ normalizeEmail v ∈ related)
        · simp only [if_pos h2, Option.map_some']
          rw [ih]
          rfl
        · simp only [if_neg h2, Option.map_none']
          exact ih (idx + 1)

/-- C2 counterexample: the claim quantifies over every query address, but a
row whose normalized primary address is empty and equal to the (empty)
normalized query address is never returned — the source guards each
candidate with Python string truthiness (`if row_email and ...`,
`src/excel_manager.py:139`), so the empty normalized address can never
match. -/
theorem c2_counterexample :
    normalizeEmail (rowAt [("Mail", "")] mgrEmptyAddrEx.mailColumn) = normalizeEmail "" ∧
    findRelatedRows mgrEmptyAddrEx "" [] = [] :=
  ⟨by decide, by decide⟩

/-- C2 (amended): `find_related_rows` returns exactly the rows whose
nonempty normalized primary address — or, failing that test and when the
response column is present, nonempty normalized response address — equals
the normalized query address or lies in the normalized related set, each
row paired with its matched normalized address, in row order, all
qualifying rows and not just the first; and on the spec's example (rows
`["a@x.com", "B@X.com"]`, query `"b@x.com"`) it returns exactly the
second row. -/
theorem c2_row_matcher :
    (∀ (mgr : ExcelMgr) (orig : String) (related : List String),
      (∀ row ∈ mgr.rows, (List.lookup mgr.mailColumn row).isSome) →
      findRelatedRows mgr orig related
        = mgr.rows.enum.filterMap fun p =>
            (matchedAddress mgr.mailColumn mgr.responseMailColumn
              (normalizeEmail orig) (related.map normalizeEmail) p.2).map
              fun a => (p.1, a)) ∧
    findRelatedRows mgrRowMatcherEx "b@x.com" [] = [(1, "b@x.com")] :=
  ⟨fun mgr orig related _h =>
    findRelatedRowsAux_eq_filterMap mgr.mailColumn mgr.responseMailColumn
      (normalizeEmail orig) (related.map normalizeEmail) mgr.rows 0,
   by decide⟩

/-- Witness for the hypothesis-bearing part of `c2_row_matcher`, at the
spec's example manager. -/
theorem c2_witness :
    findRelatedRows mgrRowMatcherEx "b@x.com" []
      = mgrRowMatcherEx.rows.enum.filterMap fun p =>
          (matchedAddress mgrRowMatcherEx.mailColumn mgrRowMatcherEx.responseMailColumn
            (normalizeEmail "b@x.com") (([] : List String).map normalizeEmail) p.2).map
            fun a => (p.1, a) :=
  c2_row_matcher.1 mgrRowMatcherEx "b@x.com" [] (by decide)

/-! ### Claims C7 and C8: the update applier -/

/-- C7: applying an update with a configured column map writes the
string-trimmed value of every field present in the map into the mapped
cell of the target row, touches no other cell of that row, touches no
other row, and silently ignores every field absent from the map
(hypotheses: the row index is loaded, and the configured targets of the
supplied fields are pairwise distinct columns, as they are for any
well-formed column map). -/
theorem c7_update_allowlist :
    ∀ (mgr : ExcelMgr) (rowIdx : Nat) (data : List (String × String)) (row : Row),
      mgr.rows.get? rowIdx = some row →
      (writtenCols mgr.columnMapping data).Nodup →
      ((∀ j, j ≠ rowIdx →
          (updateRowData mgr rowIdx data none).rows.get? j = mgr.rows.get? j) ∧
        (updateRowData mgr rowIdx data none).rows.get? rowIdx
          = some (applyFields mgr.columnMapping data row) ∧
        (∀ k v col, (k, v) ∈ data → List.lookup k mgr.columnMapping = some col →
          rowAt (applyFields mgr.columnMapping data row) col = pyStrip v) ∧
        (∀ c, c ∉ writtenCols mgr.columnMapping data →
          rowAt (applyFields mgr.columnMapping data row) c = rowAt row c)) := by
  intro mgr rowIdx data row hrow hnodup
  have hrows : (updateRowData mgr rowIdx data none).rows
      = listModify (applyFields mgr.columnMapping data) rowIdx mgr.rows := rfl
  refine ⟨?_, ?_, ?_, ?_⟩
  · intro j hj
    rw [hrows]
    exact listModify_get?_ne _ rowIdx j mgr.rows hj
  · rw [hrows, listModify_get?_eq, hrow]
    rfl
  · intro k v col hmem hk
    exact rowAt_applyFields_written mgr.columnMapping data row k v col hnodup hmem hk
  · intro c hc
    exact rowAt_applyFields_notin mgr.columnMapping data row c hc

/-- Witness for `c7_update_allowlist` at the concrete one-row manager: the
configured field `price_usd` is written trimmed into `"Price"`, the
unconfigured field `unknown_field` is ignored, and the cell `"Note"` is
untouched. -/
theorem c7_witness :
    (updateRowData mgrUpdateEx 0 dataUpdateEx none).rows.get? 0
      = some (applyFields mgrUpdateEx.columnMapping dataUpdateEx rowUpdateEx) ∧
    rowAt (applyFields mgrUpdateEx.columnMapping dataUpdateEx rowUpdateEx) "Price"
      = pyStrip " 42 " ∧
    rowAt (applyFields mgrUpdateEx.columnMapping dataUpdateEx rowUpdateEx) "Note"
      = rowAt rowUpdateEx "Note" := by
  obtain ⟨_hframe, hidx, hwrite, hkeep⟩ :=
    c7_update_allowlist mgrUpdateEx 0 dataUpdateEx rowUpdateEx (by decide) (by decide)
  exact ⟨hidx, hwrite "price_usd" " 42 " "Price" (by decide) (by decide),
    hkeep "Note" (by decide)⟩

/-- C8 counterexample: the claim quantifies over every supplied response
address; supplying the empty string, whose normalized form differs from
the row's normalized primary address `"x@y.com"`, must by the claim write
the response cell, yet the source's truthiness guard
(`if response_email:`, `src/excel_manager.py:179`) skips the write and
the response cell keeps its old value. -/
theorem c8_counterexample :
    normalizeEmail "" ≠ normalizeEmail (rowAt rowRespEx mgrRespEx.mailColumn) ∧
    (updateRowData mgrRespEx 0 [] (some "")).rows = mgrRespEx.rows ∧
    rowAt (((updateRowData mgrRespEx 0 [] (some "")).rows.get? 0).getD [])
        mgrRespEx.responseMailColumn = "old@z.com" :=
  ⟨by decide, by decide, by decide⟩

/-- C8 (amended): for every supplied nonempty response address, the update
writes the original-cased response address into the row's response cell
exactly when its normalized form differs from the row's current
normalized primary address (read after the configured field writes);
when the normalized forms agree — and likewise when the response address
is empty or absent — the rows are exactly those of the field-only
update, so the response column is never written. -/
theorem c8_response_address :
    ∀ (mgr : ExcelMgr) (rowIdx : Nat) (data : List (String × String))
      (r : String) (row : Row),
      mgr.rows.get? rowIdx = some row →
      r ≠ "" →
      ((normalizeEmail r
          ≠ normalizeEmail (rowAt (applyFields mgr.columnMapping data row) mgr.mailColumn) →
        (updateRowData mgr rowIdx data (some r)).rows.get? rowIdx
          = some (setCell (applyFields mgr.columnMapping data row)
              mgr.responseMailColumn r) ∧
        rowAt (setCell (applyFields mgr.columnMapping data row)
              mgr.responseMailColumn r) mgr.responseMailColumn = r) ∧
       (normalizeEmail r
          = normalizeEmail (rowAt (applyFields mgr.columnMapping data row) mgr.mailColumn) →
        (updateRowData mgr rowIdx data (some r)).rows
          = (updateRowData mgr rowIdx data none).rows)) := by
  intro mgr rowIdx data r row hrow hr
  have hmid : ((listModify (applyFields mgr.columnMapping data) rowIdx mgr.rows).get?
        rowIdx).getD []
      = applyFields mgr.columnMapping data row := by
    rw [listModify_get?_eq, hrow]
    rfl
  constructor
  · intro hne
    have hrows : (updateRowData mgr rowIdx data (some r)).rows
        = listModify (fun rw' => setCell rw' mgr.responseMailColumn r) rowIdx
            (listModify (applyFields mgr.columnMapping data) rowIdx mgr.rows) := by
      simp only [updateRowData, hmid]
      rw [if_pos hr, if_pos hne]
    constructor
    · rw [hrows, listModify_get?_eq, listModify_get?_eq, hrow]
      rfl
    · exact rowAt_setCell_self _ mgr.responseMailColumn r
  · intro heq
    have hrows : (updateRowData mgr rowIdx data (some r)).rows
        = listModify (applyFields mgr.columnMapping data) rowIdx mgr.rows := by
      simp only [updateRowData, hmid]
      rw [if_pos hr, if_neg (not_not_intro heq)]
    rw [hrows]
    rfl

/-- Witness for `c8_response_address`: writing a genuinely different reply
address `"new@q.com"` into the response cell of the concrete row. -/
theorem c8_witness :
    (updateRowData mgrRespEx 0 [] (some "new@q.com")).rows.get? 0
      = some (setCell (applyFields mgrRespEx.columnMapping [] rowRespEx)
          mgrRespEx.responseMailColumn "new@q.com") ∧
    rowAt (setCell (applyFields mgrRespEx.columnMapping [] rowRespEx)
        mgrRespEx.responseMailColumn "new@q.com") mgrRespEx.responseMailColumn
      = "new@q.com" :=
  (c8_response_address mgrRespEx 0 [] "new@q.com" rowRespEx (by decide)
    (by decide)).1 (by decide)

/-! ### Claim C9: thread-level processing -/

theorem pickResponseEmail_eq_firstDivergentSender
    (messages : List EmailData) (matched : String) :
    pickResponseEmail messages matched = firstDivergentSender messages matched := by
  induction messages with
  | nil => rfl
  | cons msg rest ih =>
    by_cases h : normalizeEmail msg.fromAddr = normalizeEmail matched
    · have hb : (normalizeEmail msg.fromAddr != normalizeEmail matched) = false := by
        simp [bne, h]
      simp only [pickResponseEmail, firstDivergentSender, List.find?_cons, hb,
        if_neg (not_not_intro h)]
      exact ih
    · have hb : (normalizeEmail msg.fromAddr != normalizeEmail matched) = true := by
        simp [bne, h]
      simp only [pickResponseEmail, firstDivergentSender, List.find?_cons, hb, if_pos h]
      rfl

/-- C9: `process_thread` updates every matched row of the thread with the
one thread-level analysis result, selecting for each candidate the
first-divergent sender (the sender of the first message in thread order
whose normalized address differs from the candidate's matched address) as
response address; on zero matches nothing changes. -/
theorem c9_process_thread :
    ∀ (mgr : ExcelMgr) (originalEmail : String) (participants : List String)
      (messages : List EmailData) (analysisResults : List (String × String)),
      processEmailThread mgr originalEmail participants messages analysisResults
        = (findRelatedRows mgr originalEmail participants).foldl
            (fun m p => updateRowData m p.1 analysisResults
              (firstDivergentSender messages p.2)) mgr := by
  intro mgr oe parts msgs ar
  show (if (findRelatedRows mgr oe parts).isEmpty then mgr
        else (findRelatedRows mgr oe parts).foldl
          (fun m p => updateRowData m p.1 ar (pickResponseEmail msgs p.2)) mgr)
      = _
  simp only [pickResponseEmail_eq_firstDivergentSender]
  by_cases h : (findRelatedRows mgr oe parts).isEmpty
  · rw [if_pos h, List.isEmpty_iff.mp h]
    rfl
  · rw [if_neg h]

/-! ### Claim C3: the retry wrapper -/

theorem sleepSchedule_step (d : ℚ) (n : Nat) :
    d :: (List.range n).map (fun j => 2 ^ j * (2 * d))
      = (List.range (n + 1)).map fun j => 2 ^ j * d := by
  rw [List.range_succ_eq_map]
  simp only [List.map_cons, List.map_map, pow_zero, one_mul]
  congr 1
  apply List.map_congr_left
  intro j _
  simp only [Function.comp_apply, pow_succ]
  ring

theorem retryAux_all_fail {ε α : Type} (op : Nat → Except ε α) :
    ∀ (r : Nat) (d : ℚ) (i : Nat) (last : Option ε) (sleeps : List ℚ),
      0 < r → (∀ j, j < r → ∃ e, op (i + j) = Except.error e) →
      ∃ e, op (i + (r - 1)) = Except.error e ∧
        retryAux op d i r last sleeps
          = (Except.error e, sleeps ++ (List.range (r - 1)).map fun j => 2 ^ j * d) := by
  intro r
  induction r with
  | zero => intro d i last sleeps h _; exact absurd h (lt_irrefl 0)
  | succ r' ih =>
    intro d i last sleeps _ hfail
    obtain ⟨e0, he0⟩ := hfail 0 (by omega)
    rw [Nat.add_zero] at he0
    by_cases hr : 0 < r'
    · obtain ⟨e, he, hres⟩ := ih (2 * d) (i + 1) (some e0) (sleeps ++ [d]) hr
        (fun j hj => by
          obtain ⟨e', he'⟩ := hfail (j + 1) (by omega)
          exact ⟨e', by rw [← he']; congr 1; omega⟩)
      refine ⟨e, by rw [← he]; congr 1; omega, ?_⟩
      simp only [retryAux, he0]
      rw [if_pos hr, hres, List.append_assoc]
      apply congrArg
      rw [List.singleton_append, sleepSchedule_step]
      have h2 : r' - 1 + 1 = r' + 1 - 1 := by omega
      rw [h2]
    · have hr0 : r' = 0 := by omega
      subst hr0
      refine ⟨e0, by simpa using he0, ?_⟩
      simp only [retryAux, he0]
      rw [if_neg (lt_irrefl 0)]
      simp [retryAux]

theorem retryAux_first_ok {ε α : Type} (op : Nat → Except ε α) :
    ∀ (k : Nat) (a : α) (d : ℚ) (i r : Nat) (last : Option ε) (sleeps : List ℚ),
      k < r → (∀ j, j < k → ∃ e, op (i + j) = Except.error e) →
      op (i + k) = Except.ok a →
      retryAux op d i r last sleeps
        = (Except.ok (some a), sleeps ++ (List.range k).map fun j => 2 ^ j * d) := by
  intro k
  induction k with
  | zero =>
    intro a d i r last sleeps hk _ hok
    obtain ⟨r', rfl⟩ : ∃ r', r = r' + 1 := ⟨r - 1, by omega⟩
    rw [Nat.add_zero] at hok
    simp only [retryAux, hok]
    simp
  | succ k' ih =>
    intro a d i r last sleeps hk hfail hok
    obtain ⟨r', rfl⟩ : ∃ r', r = r' + 1 := ⟨r - 1, by omega⟩
    obtain ⟨e0, he0⟩ := hfail 0 (by omega)
    rw [Nat.add_zero] at he0
    have hr : 0 < r' := by omega
    simp only [retryAux, he0]
    rw [if_pos hr,
      ih a (2 * d) (i + 1) r' (some e0) (sleeps ++ [d]) (by omega)
        (fun j hj => by
          obtain ⟨e', he'⟩ := hfail (j + 1) (by omega)
          exact ⟨e', by rw [← he']; congr 1; omega⟩)
        (by rw [← hok]; congr 1; omega),
      List.append_assoc]
    rw [List.singleton_append, sleepSchedule_step d k']

/-- C3: the retry wrapper returns the first successful result immediately
with exactly one sleep per preceding failure, the sleeps doubling from
the base delay with no jitter and no cap; it never sleeps after the final
failed attempt (`n` attempts produce at most `n - 1` sleeps); and when
every attempt fails it re-raises the last failure. -/
theorem c3_retry_policy {α : Type} (n : Nat) (d : ℚ) (op : Nat → Except String α)
    (hn : 1 ≤ n) :
    (∀ k a, k < n → (∀ j, j < k → ∃ e, op j = Except.error e) →
      op k = Except.ok a →
      retryWithBackoff n d op
        = (Except.ok (some a), (List.range k).map fun j => 2 ^ j * d)) ∧
    ((∀ j, j < n → ∃ e, op j = Except.error e) →
      ∃ e, op (n - 1) = Except.error e ∧
        retryWithBackoff n d op
          = (Except.error e, (List.range (n - 1)).map fun j => 2 ^ j * d)) := by
  constructor
  · intro k a hk hfail hok
    have h := retryAux_first_ok op k a d 0 n none [] hk
      (fun j hj => by simpa using hfail j hj) (by simpa using hok)
    simpa [retryWithBackoff] using h
  · intro hfail
    obtain ⟨e, he, hres⟩ := retryAux_all_fail op n d 0 none [] (by omega)
      (fun j hj => by simpa using hfail j hj)
    exact ⟨e, by simpa using he, by simpa [retryWithBackoff] using hres⟩

/-- Witness for `c3_retry_policy`: the spec's example — failures on
attempts 1 and 2, success with value 42 on attempt 3 — returns the
success and sleeps exactly twice, the second sleep twice the first. -/
theorem c3_witness :
    retryWithBackoff 3 1 opC3 = (Except.ok (some 42), [(1 : ℚ), 2]) ∧
    [(1 : ℚ), 2].length = 2 ∧ (2 : ℚ) = 2 * 1 := by
  have h := (c3_retry_policy 3 1 opC3 (by norm_num)).1 2 42 (by norm_num)
    (fun j hj => ⟨"fail " ++ toString j, by interval_cases j <;> rfl⟩) (by rfl)
  refine ⟨?_, rfl, by norm_num⟩
  rw [h]
  norm_num [List.range_succ]

/-! ### Claim C10: the error-counter categories -/

theorem pyDictIncr_spec (d : List (String × Nat)) (k : String) (n : Nat)
    (h : List.lookup k d = some n) :
    ∃ d', pyDictIncr d k = Except.ok d' ∧ List.lookup k d' = some (n + 1) ∧
      ∀ c, c ≠ k → List.lookup c d' = List.lookup c d := by
  refine ⟨_, by rw [pyDictIncr, h], ?_, ?_⟩
  · rw [lookup_map_replace, h]
    rfl
  · intro c hc
    exact lookup_map_replace_ne d k (n + 1) c hc

/-- C10: `ProcessingStats.errors` is initialised with exactly the five
category keys `imap`, `lm_studio`, `excel`, `search`, `processing`;
incrementing any other key raises `KeyError`; in particular each of the
four IMAP error paths (connect, search, fetch, mark-as-read) increments
an uninitialised key and so itself raises `KeyError` instead of counting
the error. -/
theorem c10_stats_error_keys :
    errorsDefault.map Prod.fst = errorCategories ∧
    (∀ k, k ∉ errorCategories → pyDictIncr errorsDefault k = Except.error k) ∧
    pyDictIncr errorsDefault imapConnectErrorKey = Except.error imapConnectErrorKey ∧
    pyDictIncr errorsDefault imapSearchErrorKey = Except.error imapSearchErrorKey ∧
    pyDictIncr errorsDefault imapFetchErrorKey = Except.error imapFetchErrorKey ∧
    pyDictIncr errorsDefault imapMarkErrorKey = Except.error imapMarkErrorKey := by
  refine ⟨rfl, ?_, rfl, rfl, rfl, rfl⟩
  intro k hk
  simp only [errorCategories, List.mem_cons, List.not_mem_nil, or_false] at hk
  push_neg at hk
  obtain ⟨h1, h2, h3, h4, h5⟩ := hk
  rw [pyDictIncr]
  have hnone : List.lookup k errorsDefault = none := by
    simp [errorsDefault, List.lookup_cons, beq_false_of_ne h1, beq_false_of_ne h2,
      beq_false_of_ne h3, beq_false_of_ne h4, beq_false_of_ne h5]
  rw [hnone]

/-- Witness for the universally quantified part of `c10_stats_error_keys`,
at the (also uninitialised) key used by `get_email_threads`
(`src/imap/handler.py:256`). -/
theorem c10_witness :
    pyDictIncr errorsDefault "imap_threads" = Except.error "imap_threads" :=
  c10_stats_error_keys.2.1 "imap_threads" (by decide)

/-! ### Claim C5: the reply-finder strategy chain -/

/-- C5 counterexample: the failures of different strategies are all
counted under one and the same key `'search'`
(`src/imap/search.py:29`) — a run in which only strategy 1
(`message_id`) raises and a run in which only strategy 3
(`subject_from`) raises produce identical error tables, so no
strategy-specific ("its own") error category exists, contrary to the
claim that an error is recorded under the raising strategy's own
category. -/
theorem c5_counterexample :
    findReplyOptimized [("message_id", Except.error "boom"),
        ("references", Except.ok (some 7)),
        ("subject_from", Except.ok (none : Option Nat))] statsInit
      = Except.ok (some 7,
          { repliesFound := 1,
            errors := [("imap", 0), ("lm_studio", 0), ("excel", 0),
              ("search", 1), ("processing", 0)] }) ∧
    findReplyOptimized [("message_id", Except.ok (none : Option Nat)),
        ("references", Except.ok none),
        ("subject_from", Except.error "boom")] statsInit
      = Except.ok (none,
          { repliesFound := 0,
            errors := [("imap", 0), ("lm_studio", 0), ("excel", 0),
              ("search", 1), ("processing", 0)] }) :=
  ⟨rfl, rfl⟩

/-- C5 (amended): the reply finder tries the strategies in their given
priority order and returns the first truthy result; every raising
strategy before it is caught, counted under the single shared `'search'`
error category (one increment per failure, no other category touched),
and never aborts the search; `replies_found` is incremented exactly once
for the returned result.  In particular, when strategy 1 raises and
strategy 2 succeeds, the result is strategy 2's and exactly one error is
recorded, under `'search'`. -/
theorem c5_reply_finder {μ : Type} :
    ∀ (pre : List (String × Except String (Option μ))) (nm : String) (r : μ)
      (rest : List (String × Except String (Option μ))) (stats : Stats) (s0 : Nat),
      (∀ x ∈ pre, (∃ e, x.2 = Except.error e) ∨ x.2 = Except.ok none) →
      List.lookup "search" stats.errors = some s0 →
      ∃ stats', findReplyOptimized (pre ++ (nm, Except.ok (some r)) :: rest) stats
          = Except.ok (some r, stats') ∧
        stats'.repliesFound = stats.repliesFound + 1 ∧
        List.lookup "search" stats'.errors = some (s0 + raisedCount pre) ∧
        ∀ c, c ≠ "search" → List.lookup c stats'.errors = List.lookup c stats.errors := by
  intro pre
  induction pre with
  | nil =>
    intro nm r rest stats s0 _ hs
    refine ⟨_, rfl, rfl, ?_, fun c _ => rfl⟩
    simpa [raisedCount] using hs
  | cons x pre' ih =>
    intro nm r rest stats s0 hpre hs
    obtain ⟨nm0, out0⟩ := x
    rcases hpre (nm0, out0) (List.mem_cons_self _ _) with ⟨e, he⟩ | hnone
    · simp only at he
      subst he
      obtain ⟨d', hincr, hsk, hck⟩ := pyDictIncr_spec stats.errors "search" s0 hs
      have step : findReplyOptimized (((nm0, Except.error e) :: pre')
            ++ (nm, Except.ok (some r)) :: rest) stats
          = findReplyOptimized (pre' ++ (nm, Except.ok (some r)) :: rest)
              { stats with errors := d' } := by
        simp only [List.cons_append, findReplyOptimized, hincr]
        rfl
      obtain ⟨stats', hres, hrep, hsearch, hother⟩ := ih nm r rest
        { stats with errors := d' } (s0 + 1)
        (fun y hy => hpre y (List.mem_cons_of_mem _ hy)) hsk
      have hcount : raisedCount ((nm0, (Except.error e : Except String (Option μ))) :: pre')
          = raisedCount pre' + 1 := by
        simp [raisedCount, List.filter_cons]
      refine ⟨stats', by rw [step]; exact hres, hrep, ?_, ?_⟩
      · rw [hsearch, hcount]
        congr 1
        omega
      · intro c hc
        rw [hother c hc]
        exact hck c hc
    · simp only at hnone
      subst hnone
      have step : findReplyOptimized (((nm0, Except.ok none) :: pre')
            ++ (nm, Except.ok (some r)) :: rest) stats
          = findReplyOptimized (pre' ++ (nm, Except.ok (some r)) :: rest) stats := by
        simp only [List.cons_append, findReplyOptimized]
        rfl
      obtain ⟨stats', hres, hrep, hsearch, hother⟩ := ih nm r rest stats s0
        (fun y hy => hpre y (List.mem_cons_of_mem _ hy)) hs
      have hcount : raisedCount ((nm0, (Except.ok none : Except String (Option μ))) :: pre')
          = raisedCount pre' := by
        simp [raisedCount, List.filter_cons]
      refine ⟨stats', by rw [step]; exact hres, hrep, ?_, hother⟩
      rw [hsearch, hcount]

/-- Witness for `c5_reply_finder`: strategy 1 raises, strategy 2 returns a
reply; the result is strategy 2's and one error lands under
`'search'`. -/
theorem c5_witness :
    ∃ stats', findReplyOptimized [("message_id", Except.error "boom"),
        ("references", Except.ok (some 7)),
        ("subject_from", Except.ok (none : Option Nat))] statsInit
      = Except.ok (some 7, stats') ∧
      stats'.repliesFound = statsInit.repliesFound + 1 ∧
      List.lookup "search" stats'.errors
        = some (0 + raisedCount [("message_id",
            (Except.error "boom" : Except String (Option Nat)))]) ∧
      ∀ c, c ≠ "search" →
        List.lookup c stats'.errors = List.lookup c statsInit.errors :=
  c5_reply_finder [("message_id", Except.error "boom")] "references" 7
    [("subject_from", Except.ok none)] statsInit 0
    (by intro x hx; simp at hx; subst hx; exact Or.inl ⟨"boom", rfl⟩)
    (by decide)

/-! ### Claim C6: the date-window fallback of the third strategy -/

/-- C6: on a sent item whose date string fails to parse, the
sender-subject-date strategy does not fall back to a "now minus 14 days"
window — its `except` handler references the unimported name
`timedelta` (`src/imap/search.py:59` against the imports at lines 1-4)
and itself raises `NameError`, so the search is never performed. -/
theorem c6_parse_failure_raises {δ μ : Type} :
    ∀ (parseDate : String → Option δ) (fmt : δ → String)
      (uidSearch : List String → Option (Option μ)) (sentDate sentTo subj : String),
      parseDate sentDate = none →
      searchBySubjectAndFrom parseDate fmt uidSearch sentDate sentTo subj
        = Except.error "NameError: name 'timedelta' is not defined" := by
  intro pd fmt us sd st sj h
  simp only [searchBySubjectAndFrom, h]

/-- Witness for `c6_parse_failure_raises`: a parse function rejecting the
concrete unparseable date string, any formatter and any mail server. -/
theorem c6_witness :
    searchBySubjectAndFrom (fun _ => (none : Option Int)) (fun _ => "")
        (fun _ => (none : Option (Option Nat))) "not-a-date" "to@x.com" "offer"
      = Except.error "NameError: name 'timedelta' is not defined" :=
  c6_parse_failure_raises (fun _ => none) (fun _ => "") (fun _ => none)
    "not-a-date" "to@x.com" "offer" rfl

end Recon
